import Mathlib

/-!
Verification of the `benchmark` Go package (benchmark.go).

Shallow embedding conventions:
* Go `float64` values are modelled as rationals (`ℚ`); every numeric
  operation performed by the source on these values (integer-valued
  multiply-add accumulation, division by a power of ten via
  `math.Pow10`) is exact on the magnitudes involved, so `ℚ` is faithful.
* A directory is modelled by its listing, a `List Entry`; `ioutil.ReadDir`
  results are `Except String (List Entry)` where `.error e` is a failed
  read carrying the OS message.  A file is modelled by its lines,
  `Except String (List String)` (`.error` = `os.Open` failure).  The Go
  reader (`bufio.ReadBytes` up to `\x0a`) yields chunks that end in the
  newline; a trailing newline can never change either regex match
  (the duration pattern needs the literal `ns` after trailing
  whitespace, the uncertainty wildcard `.` excludes the newline), and a
  final empty chunk matches neither pattern, so lines are stored
  without their terminator.
* External process execution (`exec.Cmd.Run`) is modelled by an oracle
  `Option String` (`none` = zero exit status, `some e` = failure
  message), and the commands that the code would spawn are recorded in
  an `Action` trace, so "the process is never constructed/spawned" is
  the absence of the corresponding `Action`.
* `unicode.IsDigit` is modelled as `Char.isDigit`; every character the
  two regular expressions can put into a matched substring is ASCII
  except the single wildcard position of the uncertainty pattern, and
  all claims concern ASCII report text, where the two agree.
-/

set_option autoImplicit false

namespace Benchmark

/-- Configuration (benchmark.go, type `Configuration`): the three
directory paths used by the pipeline. -/
structure Configuration where
  Src   : String
  Stats : String
  Bin   : String
deriving DecidableEq

/-- Benchmark (benchmark.go, type `Benchmark`).  `Runtime` and
`Uncertainty` are Go `float64`, modelled as `ℚ`. -/
structure Benchmark where
  Name        : String
  Path        : String
  Runtime     : ℚ
  Uncertainty : ℚ
deriving DecidableEq

/-- One immediate entry of a directory listing, as seen through Go's
`os.FileInfo`: its name, whether it is a directory, and its permission
bits (only inspected by the model for directories the code creates). -/
structure Entry where
  name  : String
  isDir : Bool
  mode  : Nat
deriving DecidableEq

/-- An external command (`exec.Command(prog, args...)`). -/
structure Cmd where
  prog : String
  args : List String
deriving DecidableEq

/-- Trace of external processes the code constructs and runs. -/
inductive Action where
  | compile (cmd : Cmd)
  | run (cmd : Cmd)
deriving DecidableEq

/-- `path` (benchmark.go lines 68-80): concatenates the given strings
with `/` separators; empty input yields the empty string. -/
def path : List String → String
  | [] => ""
  | [e] => e
  | e :: rest => rest.foldl (fun p x => p ++ "/" ++ x) e

/-- `directory_contains_file` (benchmark.go lines 83-94), applied to a
directory listing that was successfully read: true iff some immediate
entry (of any kind) has exactly the given name. -/
def directory_contains_file (name : String) (files : List Entry) : Bool :=
  files.any (fun f => f.name == name)

/-! ### The two regular expressions of `get_benchmark_results`

Go's `regexp.FindStringSubmatch` (non-POSIX) returns the leftmost
match, and among matches at that position the one a backtracking
search would find first (greedy quantifiers preferred longer).  The
two patterns are embedded as specialised backtracking matchers whose
alternative order mirrors that search order; each returns the matched
substring (`matches[0]`). -/

/-- Go regexp `\s`: `[\t\n\f\r ]`. -/
def isGoSpace (c : Char) : Bool :=
  c == ' ' || c == '\t' || c == '\n' || c == Char.ofNat 12 || c == Char.ofNat 13

/-- The literal tail `ns` of the duration pattern. -/
def matchNs : List Char → Option (List Char)
  | 'n' :: 's' :: _ => some ['n', 's']
  | _ => none

/-- `\s*ns`: greedy whitespace, then the literal `ns`. -/
def matchSpacesNs : List Char → Option (List Char)
  | [] => none
  | c :: cs =>
    if isGoSpace c then
      ((matchSpacesNs cs).map (fun t => c :: t)) <|> matchNs (c :: cs)
    else
      matchNs (c :: cs)

/-- `([0-9],?)+\s*ns` anchored at the head of the list: one or more
repetitions of digit-plus-optional-comma (greedy: comma taken first,
another repetition tried before exiting), then `\s*ns`. -/
def durRepF : Nat → List Char → Option (List Char)
  | 0, _ => none
  | _ + 1, [] => none
  | fuel + 1, c :: cs =>
    if c.isDigit then
      match cs with
      | ',' :: cs2 =>
        (((durRepF fuel cs2) <|> (matchSpacesNs cs2)).map (fun t => c :: ',' :: t))
          <|> (((durRepF fuel cs) <|> (matchSpacesNs cs)).map (fun t => c :: t))
      | _ =>
        ((durRepF fuel cs) <|> (matchSpacesNs cs)).map (fun t => c :: t)
    else none

/-- `([0-9],?)+\s*ns` anchored at the head of the list, with the fuel
set to the list length: every recursive step of `durRepF` consumes at
least one character and exactly one unit of fuel, so this fuel never
runs out before the list does. -/
def durRep (l : List Char) : Option (List Char) :=
  durRepF l.length l

/-- Leftmost match of the duration pattern `([0-9],?)+\s*ns`
(`match_duration_exp`, benchmark.go line 203). -/
def findDur : List Char → Option (List Char)
  | [] => none
  | c :: cs => durRep (c :: cs) <|> findDur cs

/-- `[0-9]+%`: the tail of the uncertainty pattern after its wildcard
(greedy digits, then the literal percent sign). -/
def uncTail2 : List Char → Option (List Char)
  | [] => none
  | c :: cs =>
    if c.isDigit then
      ((uncTail2 cs).map (fun t => c :: t))
        <|> (match cs with
             | '%' :: _ => some [c, '%']
             | _ => none)
    else none

/-- `.[0-9]+%`: the unescaped dot of the uncertainty pattern matches
any character except a newline. -/
def uncDot : List Char → Option (List Char)
  | [] => none
  | c :: cs =>
    if c == '\n' then none
    else (uncTail2 cs).map (fun t => c :: t)

/-- `[0-9]+.[0-9]+%` anchored at the head of the list: greedy leading
digits, then the wildcard, then `[0-9]+%`. -/
def uncDigits1 : List Char → Option (List Char)
  | [] => none
  | c :: cs =>
    if c.isDigit then
      ((uncDigits1 cs) <|> (uncDot cs)).map (fun t => c :: t)
    else none

/-- Leftmost match of the uncertainty pattern `[0-9]+.[0-9]+%`
(`match_uncertainty_exp`, benchmark.go line 204; the dot is unescaped
in the source and therefore a wildcard). -/
def findUnc : List Char → Option (List Char)
  | [] => none
  | c :: cs => uncDigits1 (c :: cs) <|> findUnc cs

/-- One character of the `get_float` filtering scan (the first `for`
loop of benchmark.go lines 216-226), over the accumulator (filtered
digits, found_decimal, decimal_offset). -/
def gf_step (acc : List Char × Bool × Nat) (r : Char) :
    List Char × Bool × Nat :=
  if r.isDigit then
    (acc.1 ++ [r], acc.2.1, if acc.2.1 then acc.2.2 + 1 else acc.2.2)
  else if r == '.' then
    (acc.1, true, acc.2.2)
  else acc

/-- `get_float` (benchmark.go lines 209-234): scan the matched
substring; digits are accumulated (and counted once a `.` has been
seen), every other character is a no-op; the accumulated integer is
divided by ten to the decimal-offset power.  The Go accumulation step
is `value = value*10 + float64(byte(d - '0'))`: the byte conversion
truncates the rune difference modulo 256. -/
def get_float (m : String) : ℚ :=
  let scanned := m.data.foldl gf_step ([], false, 0)
  let value : ℚ :=
    scanned.1.foldl (fun v d => v * 10 + (((d.toNat - '0'.toNat) % 256 : ℕ) : ℚ)) 0
  value / (10 : ℚ) ^ scanned.2.2

/-- The integer `get_float` accumulates, computed in `ℕ` (kernel
computable; `get_float_eq` below relates it to `get_float`). -/
def get_float_num (m : String) : ℕ :=
  ((m.data.foldl gf_step ([], false, 0)).1).foldl
    (fun v d => v * 10 + (d.toNat - '0'.toNat) % 256) 0

/-- The decimal offset `get_float` counts. -/
def get_float_off (m : String) : ℕ :=
  (m.data.foldl gf_step ([], false, 0)).2.2

/-! ### The report parser -/

/-- The error message `get_benchmark_results` returns when fewer or
more than two pattern matches were accumulated (benchmark.go
line 300). -/
def incompleteReportMsg : String :=
  "Unable to locate runtime and/or uncertainty!"

/-- The line loop of `get_benchmark_results` (benchmark.go lines
259-296), over the remaining lines, the benchmark being mutated and
the running `found_params` counter.  Per line: first the duration
pattern is tried — on failure the loop `continue`s, so the uncertainty
pattern is only ever tried on a line that already matched the duration
pattern; each successful match assigns the converted value and
increments `found_params`; the `found_params >= 2` break is only
reached after a successful uncertainty match (the `continue` skips
it). -/
def parse_lines : List String → Benchmark → Nat → Benchmark × Nat
  | [], b, found_params => (b, found_params)
  | line :: rest, b, found_params =>
    match findDur line.data with
    | none => parse_lines rest b found_params
    | some m =>
      let b1 : Benchmark := { b with Runtime := get_float ⟨m⟩ }
      let f1 := found_params + 1
      match findUnc line.data with
      | none => parse_lines rest b1 f1
      | some m2 =>
        let b2 : Benchmark := { b1 with Uncertainty := get_float ⟨m2⟩ }
        let f2 := f1 + 1
        if f2 ≥ 2 then (b2, f2)
        else parse_lines rest b2 f2

/-- `get_benchmark_results` applied to the lines of an already-opened
report file (benchmark.go lines 259-303): run the line loop from a
zero counter and fail unless exactly two matches were accumulated.
The returned benchmark carries every field assignment made before the
outcome was decided (the Go function mutates through a pointer). -/
def parse_report (content : List String) (b : Benchmark) :
    Benchmark × Except String Unit :=
  let r := parse_lines content b 0
  (r.1, if r.2 ≠ 2 then .error incompleteReportMsg else .ok ())

/-- `get_benchmark_results` (benchmark.go lines 201-304):
`fileContent` models `os.Open` on a path (`.error` = open failure,
whose message is returned unchanged). -/
def get_benchmark_results (cfg : Configuration)
    (fileContent : String → Except String (List String)) (b : Benchmark) :
    Benchmark × Except String Unit :=
  let results_file_path := path [cfg.Stats, b.Name ++ ".txt"]
  match fileContent results_file_path with
  | .error e => (b, .error e)
  | .ok lines => parse_report lines b

/-! ### Compiler invoker -/

/-- `get_files_by_suffix` (benchmark.go lines 97-121): a failed
directory read is wrapped in the `Unable to read directory` message;
otherwise every non-directory entry whose name ends in the suffix
contributes `directory ++ "/" ++ name`, in listing order. -/
def get_files_by_suffix (listing : Except String (List Entry))
    (directory suffix : String) : Except String (List String) :=
  match listing with
  | .error e =>
    .error ("Unable to read directory \"" ++ directory ++ "\", reason: " ++ e)
  | .ok files =>
    .ok (files.foldl
      (fun bag f =>
        if f.isDir then bag
        else if suffix.data.isSuffixOf f.name.data then
          bag ++ [directory ++ "/" ++ f.name]
        else bag)
      [])

/-- `get_compile_command` (benchmark.go lines 124-146): `-o bin/name`
followed by all `.c` files of the source directory; if that set is
empty the `No source files found to compile` error is returned and no
command value is ever constructed. -/
def get_compile_command (compiler name src_dir bin_dir : String)
    (src_listing : Except String (List Entry)) : Except String Cmd :=
  let executable_file_path := path [bin_dir, name]
  let args := ["-o", executable_file_path]
  match get_files_by_suffix src_listing src_dir ".c" with
  | .error e => .error e
  | .ok source_files =>
    let args := args ++ source_files
    if source_files.length = 0 then .error "No source files found to compile"
    else .ok ⟨compiler, args⟩

/-- `compile_benchmark` (benchmark.go lines 149-162): build the
compile command (the command inherits `os.Environ()`), record its
execution in the trace, and surface the run outcome (`compile_run`
oracle: `none` = exit 0). -/
def compile_benchmark (cfg : Configuration) (b : Benchmark) (compiler : String)
    (src_listing : Except String (List Entry)) (compile_run : Option String) :
    List Action × Except String Unit :=
  match get_compile_command compiler b.Name b.Path cfg.Bin src_listing with
  | .error e => ([], .error e)
  | .ok cmd =>
    ([Action.compile cmd],
     match compile_run with
     | none => .ok ()
     | some e => .error e)

/-! ### Measurement invoker -/

/-- `evaluate_benchmark` (benchmark.go lines 165-198): the perf
invocation `sudo chrt -f 99 perf stat -o stats/name.txt -e
duration_time --repeat=N bin/name`.  The executable-exists probe runs
before the command is built and run: on a missing entry the function
returns the `Executable ... not found` error with an empty trace. -/
def evaluate_benchmark (b : Benchmark) (cfg : Configuration) (repeats : Int)
    (bin_listing : Except String (List Entry)) (measure_run : Option String) :
    List Action × Except String Unit :=
  let output_file_name := b.Name ++ ".txt"
  let output_file_path := path [cfg.Stats, output_file_name]
  let args := ["chrt", "-f", "99", "perf", "stat", "-o", output_file_path,
               "-e", "duration_time"]
  match bin_listing with
  | .error e =>
    ([], .error ("Unable to search directory \"" ++ cfg.Bin ++ "\": " ++ e))
  | .ok bl =>
    if !directory_contains_file b.Name bl then
      ([], .error ("Executable \"" ++ b.Name ++ "\" not found in " ++ cfg.Bin))
    else
      let args := args ++ ["--repeat=" ++ toString repeats]
      let args := args ++ [path [cfg.Bin, b.Name]]
      ([Action.run ⟨"sudo", args⟩],
       match measure_run with
       | none => .ok ()
       | some e => .error e)

/-! ### Directory bootstrap -/

/-- The `make_if_needed` closure of `make_directories` (benchmark.go
lines 311-320): look the name up in the working directory's listing;
if absent, `os.Mkdir(name, 0777)` — modelled by appending a directory
entry with mode `0o777`, or failing when the `mkdir_ok` oracle denies
the creation. -/
def make_if_needed (mkdir_ok : String → Bool) (cwd : List Entry)
    (name : String) : Except String (List Entry) :=
  if directory_contains_file name cwd then .ok cwd
  else if mkdir_ok name then .ok (cwd ++ [⟨name, true, 0o777⟩])
  else .error ("mkdir " ++ name ++ ": permission denied")

/-- `make_directories` (benchmark.go lines 307-331): create each
supplied directory if needed, stopping at the first failure. -/
def make_directories (mkdir_ok : String → Bool) (cwd : List Entry) :
    List String → Except String (List Entry)
  | [] => .ok cwd
  | d :: rest =>
    match make_if_needed mkdir_ok cwd d with
    | .error e => .error e
    | .ok cwd2 => make_directories mkdir_ok cwd2 rest

/-! ### External package functions -/

/-- `Init_Env` (benchmark.go lines 342-344): creates (if needed) the
statistics and binaries directories — and only those two. -/
def Init_Env (cfg : Configuration) (mkdir_ok : String → Bool)
    (cwd : List Entry) : Except String (List Entry) :=
  make_directories mkdir_ok cwd [cfg.Stats, cfg.Bin]

/-- The entry loop of `Init_Benchmarks` (benchmark.go lines 359-370):
non-directories are skipped, each sub-directory becomes one zero-
initialised benchmark. -/
def init_benchmarks_loop (cfg : Configuration) : List Entry → List Benchmark
  | [] => []
  | f :: rest =>
    if !f.isDir then init_benchmarks_loop cfg rest
    else ⟨f.name, path [cfg.Src, f.name], 0, 0⟩ :: init_benchmarks_loop cfg rest

/-- `Init_Benchmarks` (benchmark.go lines 347-373). -/
def Init_Benchmarks (cfg : Configuration)
    (src_listing : Except String (List Entry)) :
    Except String (List Benchmark) :=
  match src_listing with
  | .error e => .error e
  | .ok files => .ok (init_benchmarks_loop cfg files)

/-- `Get_Unevaluated_Benchmarks` (benchmark.go lines 376-407).  The Go
function mutates benchmarks through pointers and returns the
unevaluated sub-slice and an error; the model returns (updated
benchmark list, unevaluated benchmarks, error).  On an error the
remaining benchmarks are returned unchanged and the unevaluated set
collected so far is kept (as the Go slice is). -/
def Get_Unevaluated_Benchmarks (cfg : Configuration)
    (stats_listing : Except String (List Entry))
    (fileContent : String → Except String (List String)) :
    List Benchmark → List Benchmark × List Benchmark × Option String
  | [] => ([], [], none)
  | b :: rest =>
    match stats_listing with
    | .error e =>
      (b :: rest, [], some ("Problem opening results directory: " ++ e))
    | .ok stats =>
      let results_file_name := b.Name ++ ".txt"
      if !directory_contains_file results_file_name stats then
        let r := Get_Unevaluated_Benchmarks cfg stats_listing fileContent rest
        (b :: r.1, b :: r.2.1, r.2.2)
      else
        match get_benchmark_results cfg fileContent b with
        | (b2, .error e) =>
          (b2 :: rest, [], some ("Unable to read results: " ++ e))
        | (b2, .ok _) =>
          let r := Get_Unevaluated_Benchmarks cfg stats_listing fileContent rest
          (b2 :: r.1, r.2.1, r.2.2)

/-- `Evaluate_Benchmark` (benchmark.go lines 410-451): skip
compilation when the binaries directory already has an entry of the
benchmark's name, then measure, then parse the produced report.  The
returned trace records the external processes run. -/
def Evaluate_Benchmark (compiler : String) (cfg : Configuration)
    (repeats : Int) (b : Benchmark)
    (bin_listing : Except String (List Entry))
    (src_listing : Except String (List Entry))
    (compile_run measure_run : Option String)
    (fileContent : String → Except String (List String)) :
    Benchmark × List Action × Except String Unit :=
  match bin_listing with
  | .error e =>
    (b, [], .error ("Unable to search \"" ++ cfg.Bin ++ "\": " ++ e))
  | .ok bl =>
    let was_compiled := directory_contains_file b.Name bl
    let step1 : List Action × Except String Unit :=
      if !was_compiled then
        compile_benchmark cfg b compiler src_listing compile_run
      else ([], .ok ())
    match step1 with
    | (tr1, .error e) =>
      (b, tr1, .error ("Problem compiling benchmark: " ++ e))
    | (tr1, .ok _) =>
      match evaluate_benchmark b cfg repeats bin_listing measure_run with
      | (tr2, .error e) =>
        (b, tr1 ++ tr2, .error ("Problem evaluating benchmark: " ++ e))
      | (tr2, .ok _) =>
        match get_benchmark_results cfg fileContent b with
        | (b2, .error e) =>
          (b2, tr1 ++ tr2,
           .error ("Unable to read results for " ++ b.Name ++ ": " ++ e))
        | (b2, .ok _) => (b2, tr1 ++ tr2, .ok ())

/-! ### Helper lemmas -/

theorem gf_fold_cast (l : List Char) (n : ℕ) :
    l.foldl (fun v d => v * 10 + (((d.toNat - '0'.toNat) % 256 : ℕ) : ℚ)) (n : ℚ)
      = ((l.foldl (fun v d => v * 10 + (d.toNat - '0'.toNat) % 256) n : ℕ) : ℚ) := by
  induction l generalizing n with
  | nil => rfl
  | cons c t ih =>
    simp only [List.foldl_cons]
    have h : ((n : ℚ) * 10 + (((c.toNat - '0'.toNat) % 256 : ℕ) : ℚ))
        = ((n * 10 + (c.toNat - '0'.toNat) % 256 : ℕ) : ℚ) := by
      push_cast
      ring
    rw [h, ih]

/-- `get_float` in terms of its kernel-computable numerator and
decimal offset. -/
theorem get_float_eq (m : String) :
    get_float m = (get_float_num m : ℚ) / 10 ^ get_float_off m := by
  have h := gf_fold_cast ((m.data.foldl gf_step ([], false, 0)).1) 0
  simp only [Nat.cast_zero] at h
  simp only [get_float, get_float_num, get_float_off, h]

/-- Evaluation rule for `get_float` at concrete matched substrings. -/
theorem get_float_eval (m : String) (n k : ℕ)
    (h1 : get_float_num m = n) (h2 : get_float_off m = k) :
    get_float m = (n : ℚ) / 10 ^ k := by
  rw [get_float_eq, h1, h2]

/-- Characters that are neither digits nor the decimal point leave the
`get_float` scan accumulator unchanged. -/
theorem gf_step_skip (acc : List Char × Bool × Nat) (r : Char)
    (hd : r.isDigit = false) (hp : (r == '.') = false) :
    gf_step acc r = acc := by
  simp [gf_step, hd, hp]

/-- The `get_float` scan of a digit-free string collects no digits. -/
theorem gf_scan_no_digit (l : List Char) (acc : List Char × Bool × Nat)
    (h : ∀ c ∈ l, c.isDigit = false) :
    (l.foldl gf_step acc).1 = acc.1 := by
  induction l generalizing acc with
  | nil => rfl
  | cons c t ih =>
    have hc : c.isDigit = false := h c (List.mem_cons_self c t)
    have ht : ∀ x ∈ t, x.isDigit = false := fun x hx => h x (List.mem_cons_of_mem c hx)
    simp only [List.foldl_cons]
    rw [ih _ ht]
    simp [gf_step, hc]
    split <;> rfl

/-- Removing the commas of a string does not change the `get_float`
scan: the comma hits the scan's no-op branch. -/
theorem gf_scan_filter_comma (l : List Char) (acc : List Char × Bool × Nat) :
    (l.filter (fun c => !(c == ','))).foldl gf_step acc = l.foldl gf_step acc := by
  induction l generalizing acc with
  | nil => rfl
  | cons c t ih =>
    by_cases hc : c = ','
    · subst hc
      have h1 : gf_step acc ',' = acc := by
        apply gf_step_skip <;> decide
      simp [List.filter_cons, ih, h1]
    · have hb : (c == ',') = false := by
        simp [hc]
      simp [List.filter_cons, hb, ih]

/-- Lines on which the duration pattern fails are skipped whole by the
parser loop (`continue` before the uncertainty check). -/
theorem parse_lines_skip (lines : List String) (b : Benchmark) (f : Nat)
    (h : ∀ l ∈ lines, findDur l.data = none) :
    parse_lines lines b f = (b, f) := by
  induction lines with
  | nil => rfl
  | cons l t ih =>
    have hl : findDur l.data = none := h l (List.mem_cons_self l t)
    have ht : ∀ x ∈ t, findDur x.data = none := fun x hx => h x (List.mem_cons_of_mem l hx)
    simp [parse_lines, hl, ih ht]

/-- A prefix of duration-free lines contributes nothing to the parser
loop. -/
theorem parse_lines_append_skip (pre rest : List String) (b : Benchmark) (f : Nat)
    (h : ∀ l ∈ pre, findDur l.data = none) :
    parse_lines (pre ++ rest) b f = parse_lines rest b f := by
  induction pre with
  | nil => rfl
  | cons l t ih =>
    have hl : findDur l.data = none := h l (List.mem_cons_self l t)
    have ht : ∀ x ∈ t, findDur x.data = none := fun x hx => h x (List.mem_cons_of_mem l hx)
    simp [parse_lines, hl, ih ht]

/-- When no line matches the uncertainty pattern, the loop never
breaks and the final counter is the initial one plus the number of
lines matching the duration pattern. -/
theorem parse_lines_found (lines : List String) (b : Benchmark) (f : Nat)
    (h : ∀ l ∈ lines, findUnc l.data = none) :
    (parse_lines lines b f).2
      = f + lines.countP (fun l => (findDur l.data).isSome) := by
  induction lines generalizing b f with
  | nil => simp [parse_lines]
  | cons l t ih =>
    have hl : findUnc l.data = none := h l (List.mem_cons_self l t)
    have ht : ∀ x ∈ t, findUnc x.data = none := fun x hx => h x (List.mem_cons_of_mem l hx)
    cases hd : findDur l.data with
    | none =>
      simp [parse_lines, hd, ih _ _ ht, List.countP_cons]
    | some m =>
      simp [parse_lines, hd, hl, ih _ _ ht, List.countP_cons]
      omega

/-! ### Claims -/

/-- C1, counterexample: a report whose duration match (`1,234,567 ns`)
and uncertainty match (`3.45%`) sit on two different lines, with no
other matching line, is rejected with the incomplete-report error in
both orders — the claim says such a file parses successfully.  The
reason: the parser `continue`s past any line that fails the duration
pattern, so the uncertainty pattern is never tried on the
uncertainty-only line. -/
theorem C1_counterexample :
    (findDur "1,234,567 ns".data).isSome = true ∧
    findUnc "1,234,567 ns".data = none ∧
    findDur "3.45%".data = none ∧
    (findUnc "3.45%".data).isSome = true ∧
    (parse_report ["1,234,567 ns", "3.45%"] ⟨"bm", "p", 0, 0⟩).2
      = .error incompleteReportMsg ∧
    (parse_report ["3.45%", "1,234,567 ns"] ⟨"bm", "p", 0, 0⟩).2
      = .error incompleteReportMsg := by
  have h1 : findDur "1,234,567 ns".data = some "1,234,567 ns".data := by decide
  have h3 : findDur "3.45%".data = none := by decide
  have hu1 : findUnc "1,234,567 ns".data = none := by decide
  have hu2 : findUnc "3.45%".data = some "3.45%".data := by decide
  refine ⟨by rw [h1]; rfl, hu1, h3, by rw [hu2]; rfl, ?_, ?_⟩
  · simp [parse_report, parse_lines, h1, h3, hu1]
  · simp [parse_report, parse_lines, h1, h3, hu1]

/-- C1 (amended): when the duration-matching line and the
uncertainty-matching line are different lines (and no other line
matches), parsing fails with the incomplete-report error regardless of
order, because the uncertainty pattern is only tried on lines that
already matched the duration pattern; parsing succeeds — returning the
two converted values, e.g. runtime `1234567.0` and uncertainty `3.45`
for matches `1,234,567 ns` and `3.45%` — exactly when one and the same
line matches both patterns. -/
theorem C1_amended (l1 l2 l3 : String) (m1 m2 m3 m4 : List Char) (b : Benchmark)
    (h1 : findDur l1.data = some m1) (h2 : findUnc l1.data = none)
    (h3 : findDur l2.data = none) (h4 : findUnc l2.data = some m2)
    (h5 : findDur l3.data = some m3) (h6 : findUnc l3.data = some m4) :
    (parse_report [l1, l2] b).2 = .error incompleteReportMsg ∧
    (parse_report [l2, l1] b).2 = .error incompleteReportMsg ∧
    parse_report [l3] b
      = ({ b with Runtime := get_float ⟨m3⟩, Uncertainty := get_float ⟨m4⟩ },
         .ok ()) := by
  refine ⟨?_, ?_, ?_⟩
  · simp [parse_report, parse_lines, h1, h2, h3]
  · simp [parse_report, parse_lines, h1, h2, h3]
  · simp [parse_report, parse_lines, h5, h6]

/-- C1 (amended), witness at the claim's own values. -/
theorem C1_amended_witness :
    (parse_report ["1,234,567 ns", "3.45%"] ⟨"bm", "p", 0, 0⟩).2
      = .error incompleteReportMsg ∧
    (parse_report ["3.45%", "1,234,567 ns"] ⟨"bm", "p", 0, 0⟩).2
      = .error incompleteReportMsg ∧
    parse_report ["1,234,567 ns ( +- 3.45% )"] ⟨"bm", "p", 0, 0⟩
      = (⟨"bm", "p", 1234567, 69/20⟩, .ok ()) := by
  have h := C1_amended "1,234,567 ns" "3.45%" "1,234,567 ns ( +- 3.45% )"
    "1,234,567 ns".data "3.45%".data "1,234,567 ns".data "3.45%".data
    ⟨"bm", "p", 0, 0⟩
    (by decide) (by decide) (by decide) (by decide) (by decide) (by decide)
  have hg1 : get_float (String.mk "1,234,567 ns".data) = 1234567 := by
    rw [get_float_eval (String.mk "1,234,567 ns".data) 1234567 0 rfl rfl]
    norm_num
  have hg2 : get_float (String.mk "3.45%".data) = 69/20 := by
    rw [get_float_eval (String.mk "3.45%".data) 345 2 rfl rfl]
    norm_num
  simp only [hg1, hg2] at h
  exact h

/-- C2, counterexample: a report with two duration-only lines and not
a single uncertainty match parses successfully — the match counter
reaches two — leaving `Uncertainty` at its default and `Runtime` at
the last duration line's value; the claim says any report with no
uncertainty match fails with the incomplete-report error. -/
theorem C2_counterexample :
    findUnc "1 ns".data = none ∧
    findUnc "2 ns".data = none ∧
    parse_report ["1 ns", "2 ns"] ⟨"bm", "p", 0, 0⟩
      = (⟨"bm", "p", 2, 0⟩, .ok ()) := by
  have h1 : findDur "1 ns".data = some "1 ns".data := by decide
  have h2 : findDur "2 ns".data = some "2 ns".data := by decide
  have hu1 : findUnc "1 ns".data = none := by decide
  have hu2 : findUnc "2 ns".data = none := by decide
  have hg : get_float (String.mk "2 ns".data) = 2 := by
    rw [get_float_eval (String.mk "2 ns".data) 2 0 rfl rfl]
    norm_num
  refine ⟨hu1, hu2, ?_⟩
  simp [parse_report, parse_lines, h1, h2, hu1, hu2, hg]

/-- C2 (amended): if no line matches the duration pattern, parsing
fails with the incomplete-report error; if no line matches the
uncertainty pattern, parsing fails — unless exactly two lines match
the duration pattern, in which case it succeeds (with the uncertainty
field left untouched), because the parser counts total matches rather
than distinct parameters. -/
theorem C2_amended (content : List String) (b : Benchmark) :
    ((∀ l ∈ content, findDur l.data = none) →
      (parse_report content b).2 = .error incompleteReportMsg) ∧
    ((∀ l ∈ content, findUnc l.data = none) →
      ((parse_report content b).2 = .ok ()
        ↔ content.countP (fun l => (findDur l.data).isSome) = 2)) := by
  constructor
  · intro h
    simp [parse_report, parse_lines_skip content b 0 h]
  · intro h
    have hf := parse_lines_found content b 0 h
    by_cases hc : content.countP (fun l => (findDur l.data).isSome) = 2
    · simp [parse_report, hf, hc]
    · simp [parse_report, hf, hc]

/-- C2 (amended), witness: a file with no match at all fails; a file
with two duration-only lines succeeds. -/
theorem C2_amended_witness :
    (parse_report ["hello"] ⟨"bm", "p", 0, 0⟩).2 = .error incompleteReportMsg ∧
    (parse_report ["5 ns", "6 ns"] ⟨"bm", "p", 0, 0⟩).2 = .ok () := by
  refine ⟨(C2_amended ["hello"] ⟨"bm", "p", 0, 0⟩).1 (by decide), ?_⟩
  exact ((C2_amended ["5 ns", "6 ns"] ⟨"bm", "p", 0, 0⟩).2 (by decide)).mpr (by decide)

/-- C3: the numeric conversion routine maps `0.5%` to `0.5` and
`12,000 ns` to `12000.0`; a string with no digit characters maps to
`0.0`; and thousands-separator commas are no-ops (removing every comma
from the input leaves the result unchanged); the digits are
accumulated by `value*10 + digit` and divided by ten to the power of
the number of digits after the decimal point, per `get_float`'s
definition. -/
theorem C3_get_float_spec :
    get_float "0.5%" = 1/2 ∧
    get_float "12,000 ns" = 12000 ∧
    (∀ s : String, (∀ c ∈ s.data, c.isDigit = false) → get_float s = 0) ∧
    (∀ s : String,
      get_float (String.mk (s.data.filter (fun c => !(c == ',')))) = get_float s) := by
  refine ⟨?_, ?_, ?_, ?_⟩
  · rw [get_float_eval "0.5%" 5 1 rfl rfl]
    norm_num
  · rw [get_float_eval "12,000 ns" 12000 0 rfl rfl]
    norm_num
  · intro s h
    have hs := gf_scan_no_digit s.data ([], false, 0) h
    simp [get_float, hs]
  · intro s
    simp [get_float, gf_scan_filter_comma]

/-- C3, witness for the quantified parts: a digit-free input maps to
zero, and comma removal does not change the value of `1,234`. -/
theorem C3_witness :
    get_float "ns %" = 0 ∧
    get_float (String.mk ("1,234".data.filter (fun c => !(c == ',')))) = get_float "1,234" := by
  exact ⟨C3_get_float_spec.2.2.1 "ns %" (by decide), C3_get_float_spec.2.2.2 "1,234"⟩

/-- C9: report parsing is not atomic on failure.  For a report whose
only duration-matching line is `l` (with match `m`, no uncertainty
match anywhere relevant), the parser returns the incomplete-report
error yet the returned benchmark's `Runtime` holds `l`'s converted
value — the partial mutation is not rolled back to the pre-call
value. -/
theorem C9_partial_mutation (pre post : List String) (l : String) (m : List Char)
    (b : Benchmark)
    (hpre : ∀ x ∈ pre, findDur x.data = none)
    (hl : findDur l.data = some m) (hlu : findUnc l.data = none)
    (hpost : ∀ x ∈ post, findDur x.data = none) :
    parse_report (pre ++ l :: post) b
      = ({ b with Runtime := get_float ⟨m⟩ }, .error incompleteReportMsg) := by
  unfold parse_report
  rw [parse_lines_append_skip pre (l :: post) b 0 hpre]
  simp [parse_lines, hl, hlu, parse_lines_skip post _ 1 hpost]

/-- C9, witness: an initial runtime of `7` is overwritten by the
duration line's value `1234567` even though parsing fails. -/
theorem C9_witness :
    parse_report ["x", "1,234,567 ns", "y"] ⟨"bm", "p", 7, 9⟩
      = (⟨"bm", "p", 1234567, 9⟩, .error incompleteReportMsg) := by
  have h := C9_partial_mutation ["x"] ["y"] "1,234,567 ns" "1,234,567 ns".data
    ⟨"bm", "p", 7, 9⟩ (by decide) (by decide) (by decide) (by decide)
  have hg : get_float (String.mk "1,234,567 ns".data) = 1234567 := by
    rw [get_float_eval (String.mk "1,234,567 ns".data) 1234567 0 rfl rfl]
    norm_num
  simp only [hg] at h
  exact h

/-- The filesystem probe distributes over concatenated listings. -/
theorem contains_append (n : String) (xs ys : List Entry) :
    directory_contains_file n (xs ++ ys)
      = (directory_contains_file n xs || directory_contains_file n ys) := by
  simp [directory_contains_file, List.any_append]

/-- C4, counterexample: starting from an empty working directory with
every creation allowed, `Init_Env` succeeds having created only the
results and binaries directories — the configured source root
`srcdir` is absent from the resulting listing, against the claim that
all three configured directories exist after success. -/
theorem C4_counterexample :
    Init_Env ⟨"srcdir", "statsdir", "bindir"⟩ (fun _ => true) []
        = .ok [⟨"statsdir", true, 511⟩, ⟨"bindir", true, 511⟩] ∧
    directory_contains_file "srcdir"
        [⟨"statsdir", true, 511⟩, ⟨"bindir", true, 511⟩] = false := by
  exact ⟨rfl, by decide⟩

/-- C4 (amended): after `Init_Env` succeeds the results and binaries
directories exist in the working directory's listing, each created as
a directory with world read/write/execute mode (`0o777`) when it was
absent; the source root is neither checked nor created (`Init_Env`
does not depend on it); if creating either of the two fails,
`Init_Env` returns an error. -/
theorem C4_amended (cfg : Configuration) (mk : String → Bool) (cwd : List Entry) :
    (∀ cwd2, Init_Env cfg mk cwd = .ok cwd2 →
      directory_contains_file cfg.Stats cwd2 = true ∧
      directory_contains_file cfg.Bin cwd2 = true ∧
      (directory_contains_file cfg.Stats cwd = false →
        Entry.mk cfg.Stats true 511 ∈ cwd2) ∧
      (directory_contains_file cfg.Bin cwd = false →
        Entry.mk cfg.Bin true 511 ∈ cwd2)) ∧
    (∀ s, Init_Env { cfg with Src := s } mk cwd = Init_Env cfg mk cwd) ∧
    (directory_contains_file cfg.Stats cwd = false → mk cfg.Stats = false →
      Init_Env cfg mk cwd
        = .error ("mkdir " ++ cfg.Stats ++ ": permission denied")) ∧
    (directory_contains_file cfg.Stats cwd = true →
      directory_contains_file cfg.Bin cwd = false → mk cfg.Bin = false →
      Init_Env cfg mk cwd
        = .error ("mkdir " ++ cfg.Bin ++ ": permission denied")) := by
  refine ⟨?_, fun s => rfl, ?_, ?_⟩
  · intro cwd2 h
    simp only [Init_Env, make_directories, make_if_needed] at h
    by_cases hS : directory_contains_file cfg.Stats cwd = true
    · simp only [hS, if_true] at h
      by_cases hB : directory_contains_file cfg.Bin cwd = true
      · simp [hB] at h
        subst h
        exact ⟨hS, hB, fun hc => absurd hS (by simp [hc]),
               fun hc => absurd hB (by simp [hc])⟩
      · by_cases hmB : mk cfg.Bin = true
        · simp [hB, hmB] at h
          subst h
          refine ⟨?_, ?_, fun hc => absurd hS (by simp [hc]), fun _ => ?_⟩
          · rw [contains_append, hS]
            rfl
          · rw [contains_append]
            simp [directory_contains_file]
          · simp
        · simp [hB, hmB] at h
    · by_cases hmS : mk cfg.Stats = true
      · simp only [hS, hmS, if_true, if_false] at h
        by_cases hB : directory_contains_file cfg.Bin
            (cwd ++ [⟨cfg.Stats, true, 511⟩]) = true
        · simp [hB] at h
          subst h
          refine ⟨?_, hB, fun _ => by simp, fun hc => ?_⟩
          · rw [contains_append]
            simp [directory_contains_file]
          · rw [contains_append, hc] at hB
            simp only [Bool.false_or] at hB
            simp only [directory_contains_file, List.any_cons, List.any_nil,
              Bool.or_false] at hB
            have hsb : cfg.Stats = cfg.Bin := eq_of_beq hB
            rw [← hsb]
            simp
        · by_cases hmB : mk cfg.Bin = true
          · simp [hB, hmB] at h
            subst h
            refine ⟨?_, ?_, fun _ => ?_, fun _ => ?_⟩
            · rw [contains_append]
              simp [directory_contains_file]
            · rw [contains_append]
              simp [directory_contains_file]
            · simp
            · simp
          · simp [hB, hmB] at h
      · simp [hS, hmS] at h
  · intro hS hmS
    simp [Init_Env, make_directories, make_if_needed, hS, hmS]
  · intro hS hB hmB
    simp [Init_Env, make_directories, make_if_needed, hS, hB, hmB]

/-- C4 (amended), witness: the concrete run of the counterexample
setup satisfies every consequence. -/
theorem C4_amended_witness :
    directory_contains_file "statsdir"
        [⟨"statsdir", true, 511⟩, ⟨"bindir", true, 511⟩] = true ∧
    directory_contains_file "bindir"
        [⟨"statsdir", true, 511⟩, ⟨"bindir", true, 511⟩] = true ∧
    Entry.mk "statsdir" true 511 ∈
        [Entry.mk "statsdir" true 511, Entry.mk "bindir" true 511] ∧
    Entry.mk "bindir" true 511 ∈
        [Entry.mk "statsdir" true 511, Entry.mk "bindir" true 511] ∧
    Init_Env ⟨"other", "statsdir", "bindir"⟩ (fun _ => true) []
      = Init_Env ⟨"srcdir", "statsdir", "bindir"⟩ (fun _ => true) [] ∧
    Init_Env ⟨"srcdir", "statsdir", "bindir"⟩ (fun _ => false) []
      = .error ("mkdir " ++ "statsdir" ++ ": permission denied") := by
  have h := C4_amended ⟨"srcdir", "statsdir", "bindir"⟩ (fun _ => true) []
  have h2 := C4_amended ⟨"srcdir", "statsdir", "bindir"⟩ (fun _ => false) []
  have hc := h.1 [⟨"statsdir", true, 511⟩, ⟨"bindir", true, 511⟩] rfl
  exact ⟨hc.1, hc.2.1, hc.2.2.1 (by decide), hc.2.2.2 (by decide),
         h.2.1 "other", h2.2.2.1 (by decide) rfl⟩

/-- The `.c`-file collection of `get_files_by_suffix` is empty when no
non-directory entry's name carries the suffix. -/
theorem gfbs_fold_nil (directory suffix : String) (files : List Entry)
    (bag : List String)
    (h : ∀ f ∈ files, f.isDir = false → suffix.data.isSuffixOf f.name.data = false) :
    files.foldl
      (fun bag f =>
        if f.isDir then bag
        else if suffix.data.isSuffixOf f.name.data then
          bag ++ [directory ++ "/" ++ f.name]
        else bag)
      bag = bag := by
  induction files generalizing bag with
  | nil => rfl
  | cons f t ih =>
    have hf := h f (List.mem_cons_self f t)
    have ht : ∀ x ∈ t, x.isDir = false → suffix.data.isSuffixOf x.name.data = false :=
      fun x hx => h x (List.mem_cons_of_mem f hx)
    cases hd : f.isDir with
    | true => simp only [List.foldl_cons, hd, if_true, ih _ ht]
    | false =>
      simp only [List.foldl_cons, hd, if_false, hf hd, Bool.false_eq_true,
        ih _ ht]

/-- C5: when the benchmark's source directory holds no file whose name
ends in `.c` (whatever other entries it holds), `get_compile_command`
returns the `No source files found to compile` error — so no command
value is constructed — and `compile_benchmark` propagates it with an
empty execution trace: no compiler process is constructed or run. -/
theorem C5_no_source_files (compiler : String) (cfg : Configuration)
    (b : Benchmark) (files : List Entry) (cr : Option String)
    (h : ∀ f ∈ files, f.isDir = false → ".c".data.isSuffixOf f.name.data = false) :
    get_compile_command compiler b.Name b.Path cfg.Bin (.ok files)
      = .error "No source files found to compile" ∧
    compile_benchmark cfg b compiler (.ok files) cr
      = ([], .error "No source files found to compile") := by
  have hc : get_compile_command compiler b.Name b.Path cfg.Bin (.ok files)
      = .error "No source files found to compile" := by
    simp only [get_compile_command, get_files_by_suffix,
      gfbs_fold_nil b.Path ".c" files [] h]
    rfl
  exact ⟨hc, by simp [compile_benchmark, hc]⟩

/-- C5, witness: a source directory holding a README and a
sub-directory named `x.c` (a directory, hence skipped) yields the
error with no compile action. -/
theorem C5_witness :
    compile_benchmark ⟨"src", "stats", "bin"⟩ ⟨"bm", "src/bm", 0, 0⟩ "cc"
        (.ok [⟨"README.md", false, 420⟩, ⟨"x.c", true, 511⟩]) none
      = ([], .error "No source files found to compile") := by
  exact (C5_no_source_files "cc" ⟨"src", "stats", "bin"⟩ ⟨"bm", "src/bm", 0, 0⟩
    [⟨"README.md", false, 420⟩, ⟨"x.c", true, 511⟩] none (by decide)).2

/-- C6: when the binaries directory has no entry named like the
benchmark, `evaluate_benchmark` fails with the executable-not-found
error and an empty trace: the measurement tool process is never
spawned. -/
theorem C6_executable_not_found (b : Benchmark) (cfg : Configuration)
    (repeats : Int) (bl : List Entry) (mr : Option String)
    (h : directory_contains_file b.Name bl = false) :
    evaluate_benchmark b cfg repeats (.ok bl) mr
      = ([], .error ("Executable \"" ++ b.Name ++ "\" not found in " ++ cfg.Bin)) := by
  simp [evaluate_benchmark, h]

/-- C6, witness: an empty binaries directory. -/
theorem C6_witness :
    evaluate_benchmark ⟨"bm", "src/bm", 0, 0⟩ ⟨"src", "stats", "bin"⟩ 10
        (.ok []) none
      = ([], .error ("Executable \"" ++ "bm" ++ "\" not found in " ++ "bin")) := by
  exact C6_executable_not_found ⟨"bm", "src/bm", 0, 0⟩ ⟨"src", "stats", "bin"⟩
    10 [] none (by decide)

/-- The discovery loop is the filter-then-map over the listing. -/
theorem init_benchmarks_loop_eq (cfg : Configuration) (files : List Entry) :
    init_benchmarks_loop cfg files
      = (files.filter (fun f => f.isDir)).map
          (fun f => ⟨f.name, cfg.Src ++ "/" ++ f.name, 0, 0⟩) := by
  induction files with
  | nil => rfl
  | cons f t ih =>
    cases hd : f.isDir with
    | true =>
      simp only [init_benchmarks_loop, hd, Bool.not_true, Bool.false_eq_true,
        if_false, List.filter_cons, if_true, List.map_cons, ih]
      rfl
    | false =>
      simp only [init_benchmarks_loop, hd, Bool.not_false, if_true,
        List.filter_cons, Bool.false_eq_true, if_false, ih]

/-- C7: discovery over a readable source root produces exactly one
benchmark per immediate sub-directory — whatever that sub-directory
contains, with no recursion into it — named after the entry, with path
`sourceRoot/name` and both measurement fields zero; every
non-directory entry is skipped. -/
theorem C7_discovery (cfg : Configuration) (files : List Entry) :
    Init_Benchmarks cfg (.ok files)
      = .ok ((files.filter (fun f => f.isDir)).map
          (fun f => ⟨f.name, cfg.Src ++ "/" ++ f.name, 0, 0⟩)) := by
  simp [Init_Benchmarks, init_benchmarks_loop_eq]

/-- C8: when `Get_Unevaluated_Benchmarks` returns without error, the
unevaluated slice holds exactly the benchmarks with no `<name>.txt`
entry in the results directory (in order), every cached benchmark in
the returned catalog has been replaced by the result of parsing its
report, and that parse succeeded for each of them. -/
theorem C8_cache_filter (cfg : Configuration) (stats : List Entry)
    (fc : String → Except String (List String))
    (benchmarks all unev : List Benchmark)
    (h : Get_Unevaluated_Benchmarks cfg (.ok stats) fc benchmarks
          = (all, unev, none)) :
    unev = benchmarks.filter
      (fun b => !directory_contains_file (b.Name ++ ".txt") stats) ∧
    all = benchmarks.map (fun b =>
      if directory_contains_file (b.Name ++ ".txt") stats
      then (get_benchmark_results cfg fc b).1 else b) ∧
    ∀ b ∈ benchmarks, directory_contains_file (b.Name ++ ".txt") stats = true →
      (get_benchmark_results cfg fc b).2 = .ok () := by
  induction benchmarks generalizing all unev with
  | nil =>
    simp only [Get_Unevaluated_Benchmarks, Prod.mk.injEq] at h
    obtain ⟨rfl, rfl, -⟩ := h
    simp
  | cons b t ih =>
    simp only [Get_Unevaluated_Benchmarks] at h
    by_cases hc : directory_contains_file (b.Name ++ ".txt") stats = true
    · rcases hgb : get_benchmark_results cfg fc b with ⟨b2, res⟩
      rw [hgb] at h
      cases res with
      | error e => simp [hc] at h
      | ok u =>
        simp only [hc, Bool.not_true, Bool.false_eq_true, if_false,
          Prod.mk.injEq] at h
        obtain ⟨h1, h2, h3⟩ := h
        have hrec := ih _ _ (by rw [← h3])
        refine ⟨?_, ?_, ?_⟩
        · rw [← h2, hrec.1]
          simp [List.filter_cons, hc]
        · rw [← h1, hrec.2.1]
          simp [List.map_cons, hc, hgb]
        · intro x hx hcx
          rcases List.mem_cons.mp hx with rfl | hxt
          · rw [hgb]
          · exact hrec.2.2 x hxt hcx
    · have hcf : directory_contains_file (b.Name ++ ".txt") stats = false := by
        simp [Bool.not_eq_true] at hc
        exact hc
      simp only [hcf, Bool.not_false, if_true, Prod.mk.injEq] at h
      obtain ⟨h1, h2, h3⟩ := h
      have hrec := ih _ _ (by rw [← h3])
      refine ⟨?_, ?_, ?_⟩
      · rw [← h2, hrec.1]
        simp [List.filter_cons, hcf]
      · rw [← h1, hrec.2.1]
        simp [List.map_cons, hcf]
      · intro x hx hcx
        rcases List.mem_cons.mp hx with rfl | hxt
        · rw [hcx] at hcf
          cases hcf
        · exact hrec.2.2 x hxt hcx

/-- C8, witness: a two-benchmark catalog where `a` has a cached report
(`1,000 ns ( +- 2.50% )`) and `b` does not: only `b` is returned as
unevaluated, `a`'s fields are populated from the report, and the parse
succeeded. -/
theorem C8_witness :
    (Get_Unevaluated_Benchmarks ⟨"src", "st", "bin"⟩ (.ok [⟨"a.txt", false, 420⟩])
        (fun p => if p = "st/a.txt" then .ok ["1,000 ns ( +- 2.50% )"]
                  else .error "open")
        [⟨"a", "src/a", 0, 0⟩, ⟨"b", "src/b", 0, 0⟩]).2.1
      = [⟨"a", "src/a", 0, 0⟩, ⟨"b", "src/b", 0, 0⟩].filter
          (fun b => !directory_contains_file (b.Name ++ ".txt")
            [⟨"a.txt", false, 420⟩]) ∧
    (Get_Unevaluated_Benchmarks ⟨"src", "st", "bin"⟩ (.ok [⟨"a.txt", false, 420⟩])
        (fun p => if p = "st/a.txt" then .ok ["1,000 ns ( +- 2.50% )"]
                  else .error "open")
        [⟨"a", "src/a", 0, 0⟩, ⟨"b", "src/b", 0, 0⟩]).1
      = [⟨"a", "src/a", 0, 0⟩, ⟨"b", "src/b", 0, 0⟩].map (fun b =>
          if directory_contains_file (b.Name ++ ".txt") [⟨"a.txt", false, 420⟩]
          then (get_benchmark_results ⟨"src", "st", "bin"⟩
            (fun p => if p = "st/a.txt" then .ok ["1,000 ns ( +- 2.50% )"]
                      else .error "open") b).1
          else b) ∧
    (get_benchmark_results ⟨"src", "st", "bin"⟩
        (fun p => if p = "st/a.txt" then .ok ["1,000 ns ( +- 2.50% )"]
                  else .error "open") ⟨"a", "src/a", 0, 0⟩).2 = .ok () := by
  have h := C8_cache_filter ⟨"src", "st", "bin"⟩ [⟨"a.txt", false, 420⟩]
    (fun p => if p = "st/a.txt" then .ok ["1,000 ns ( +- 2.50% )"]
              else .error "open")
    [⟨"a", "src/a", 0, 0⟩, ⟨"b", "src/b", 0, 0⟩] _ _ rfl
  exact ⟨h.1, h.2.1, h.2.2 ⟨"a", "src/a", 0, 0⟩ (by simp) (by decide)⟩

/-- C10: the filesystem probe matches entries of any kind by name —
in particular a sub-directory of the binaries directory named like the
benchmark satisfies it; consequently `Evaluate_Benchmark` skips
compilation (its trace holds no compile action, only the single
measurement invocation) and `evaluate_benchmark`'s executable-exists
precondition passes, building and running the measurement command as
if a compiled executable existed. -/
theorem C10_probe_any_entry (compiler : String) (cfg : Configuration)
    (repeats : Int) (b : Benchmark) (bl : List Entry) (mode : Nat)
    (src_listing : Except String (List Entry)) (cr mr : Option String)
    (fc : String → Except String (List String))
    (h : Entry.mk b.Name true mode ∈ bl) :
    directory_contains_file b.Name bl = true ∧
    (Evaluate_Benchmark compiler cfg repeats b (.ok bl) src_listing cr mr fc).2.1
      = [Action.run ⟨"sudo",
          ["chrt", "-f", "99", "perf", "stat", "-o",
           path [cfg.Stats, b.Name ++ ".txt"], "-e", "duration_time",
           "--repeat=" ++ toString repeats, path [cfg.Bin, b.Name]]⟩] ∧
    (evaluate_benchmark b cfg repeats (.ok bl) mr).1
      = [Action.run ⟨"sudo",
          ["chrt", "-f", "99", "perf", "stat", "-o",
           path [cfg.Stats, b.Name ++ ".txt"], "-e", "duration_time",
           "--repeat=" ++ toString repeats, path [cfg.Bin, b.Name]]⟩] := by
  have hcont : directory_contains_file b.Name bl = true := by
    simp only [directory_contains_file, List.any_eq_true]
    exact ⟨_, h, by simp⟩
  have heval1 : (evaluate_benchmark b cfg repeats (.ok bl) mr).1
      = [Action.run ⟨"sudo",
          ["chrt", "-f", "99", "perf", "stat", "-o",
           path [cfg.Stats, b.Name ++ ".txt"], "-e", "duration_time",
           "--repeat=" ++ toString repeats, path [cfg.Bin, b.Name]]⟩] := by
    simp [evaluate_benchmark, hcont]
  refine ⟨hcont, ?_, heval1⟩
  rcases hgb : get_benchmark_results cfg fc b with ⟨b2, res⟩
  cases mr <;> cases res <;>
    simp [Evaluate_Benchmark, evaluate_benchmark, hcont, hgb]

/-- C10, witness: a binaries directory holding only a sub-directory
named `bench1`. -/
theorem C10_witness :
    directory_contains_file "bench1" [⟨"bench1", true, 493⟩] = true ∧
    (Evaluate_Benchmark "cc" ⟨"src", "stats", "bin"⟩ 10 ⟨"bench1", "src/bench1", 0, 0⟩
        (.ok [⟨"bench1", true, 493⟩]) (.ok []) none none
        (fun _ => .error "open")).2.1
      = [Action.run ⟨"sudo",
          ["chrt", "-f", "99", "perf", "stat", "-o", "stats/bench1.txt",
           "-e", "duration_time", "--repeat=10", "bin/bench1"]⟩] ∧
    (evaluate_benchmark ⟨"bench1", "src/bench1", 0, 0⟩ ⟨"src", "stats", "bin"⟩ 10
        (.ok [⟨"bench1", true, 493⟩]) none).1
      = [Action.run ⟨"sudo",
          ["chrt", "-f", "99", "perf", "stat", "-o", "stats/bench1.txt",
           "-e", "duration_time", "--repeat=10", "bin/bench1"]⟩] := by
  have h := C10_probe_any_entry "cc" ⟨"src", "stats", "bin"⟩ 10
    ⟨"bench1", "src/bench1", 0, 0⟩ [⟨"bench1", true, 493⟩] 493
    (.ok []) none none (fun _ => .error "open") (by decide)
  exact ⟨h.1, h.2.1, h.2.2⟩

end Benchmark
